import Mathlib

/-!
Shallow embedding of the Dynamic Module & Tool Manager runtime
(`dynamic_tool_manager.py`): requirement detection, dependency
installation with cooldown, file-change debouncing, module load/reload,
tool execution and usage statistics.  Strings are modelled through their
character lists so that every operation is an executable structural
recursion; timestamps are natural numbers (seconds) except for the file
watcher, whose sub-second debounce uses rationals; the floating-point
success rate is idealised as a rational.
-/

set_option maxHeartbeats 1000000

namespace DTM

/-! ### Character-list string primitives (Python `in`, `startswith`, …) -/

/-- Prefix test on character lists. -/
def isPrefixChars : List Char → List Char → Bool
  | [], _ => true
  | _ :: _, [] => false
  | a :: as, b :: bs => a == b && isPrefixChars as bs

/-- Python substring membership `needle in haystack`, on character lists. -/
def isSubstringChars (needle : List Char) : List Char → Bool
  | [] => isPrefixChars needle []
  | b :: bs => isPrefixChars needle (b :: bs) || isSubstringChars needle bs

/-- Python `needle in haystack` for strings. -/
def strContains (haystack needle : String) : Bool :=
  isSubstringChars needle.data haystack.data

/-- Python `str.lower()`. -/
def pyLower (s : String) : String := ⟨s.data.map Char.toLower⟩

/-- Python `str.startswith(pre)`. -/
def pyStartsWith (s pre : String) : Bool := isPrefixChars pre.data s.data

/-- Python `str.endswith(suf)`. -/
def pyEndsWith (s suf : String) : Bool :=
  isPrefixChars suf.data.reverse s.data.reverse

/-- The part of `l` before the first occurrence of the (nonempty)
separator `sep`; the whole list when `sep` does not occur.  This is
Python `s.split(sep)[0]`. -/
def takeUntilSep (sep : List Char) : List Char → List Char
  | [] => []
  | c :: cs =>
      if isPrefixChars sep (c :: cs) then []
      else c :: takeUntilSep sep cs

/-- Python `s.split(sep)[0]` for strings. -/
def pySplitHead (s sep : String) : String := ⟨takeUntilSep sep.data s.data⟩

/-- Python `str.split('_')` (single-character separator). -/
def splitOnChar (c : Char) : List Char → List (List Char)
  | [] => [[]]
  | x :: xs =>
      let r := splitOnChar c xs
      if x == c then [] :: r
      else
        match r with
        | [] => [[x]]
        | h :: t => (x :: h) :: t

/-- Whitespace recognised by Python `str.strip()` (the cases that occur here). -/
def isSpaceChar (c : Char) : Bool := c == ' ' || c == '\t' || c == '\n' || c == '\r'

/-- Python `str.strip()`. -/
def pyStrip (s : String) : String :=
  ⟨((s.data.dropWhile isSpaceChar).reverse.dropWhile isSpaceChar).reverse⟩

/-- Python `str.capitalize()`: first character upper-cased, rest lower-cased. -/
def pyCapitalize (s : String) : String :=
  match s.data with
  | [] => ""
  | c :: cs => ⟨c.toUpper :: cs.map Char.toLower⟩

/-- `''.join(word.capitalize() for word in module_name.split('_')) + 'Module'`
(`load_module`, line 374). -/
def moduleClassName (module_name : String) : String :=
  String.join ((splitOnChar '_' module_name.data).map fun w => pyCapitalize ⟨w⟩) ++ "Module"

/-! ### Association-list operations mirroring Python `dict` -/

/-- `d[k]` lookup (first matching key). -/
def alGet {β : Type} (l : List (String × β)) (k : String) : Option β :=
  (l.find? fun p => p.1 == k).map (·.2)

/-- `d[k] = v`: replace in place when the key is present, append otherwise
(Python dicts keep insertion order). -/
def alInsert {β : Type} (l : List (String × β)) (k : String) (v : β) :
    List (String × β) :=
  if l.any (fun p => p.1 == k) then
    l.map fun p => if p.1 == k then (k, v) else p
  else l ++ [(k, v)]

/-- The key list of an association list. -/
def alKeys {β : Type} (l : List (String × β)) : List String := l.map (·.1)

/-! ### RequirementDetector (lines 53–130) -/

/-- `ToolRequirement` dataclass (lines 22–37).  The `created_at` timestamp
carries no behaviour and is omitted; `__post_init__` makes
`dependencies = []` the default. -/
structure ToolRequirement where
  name : String
  description : String
  category : String
  priority : Nat
  dependencies : List String
  auto_install : Bool
deriving Repr, DecidableEq

/-- The keyword pattern table (lines 58–64). -/
def patterns : List (String × List String) :=
  [("financial", ["budget", "expense", "money", "cost", "financial", "payment"]),
   ("health", ["wellness", "health", "fitness", "exercise", "sleep", "stress"]),
   ("productivity", ["task", "schedule", "time", "productivity", "focus", "work"]),
   ("security", ["security", "privacy", "encrypt", "audit", "compliance"]),
   ("data", ["report", "analysis", "chart", "visualization", "insight"])]

/-- `sum(1 for keyword in keywords if keyword in user_input_lower)` (line 106). -/
def keywordCount (keywords : List String) (lowered : String) : Nat :=
  (keywords.filter fun k => strContains lowered k).length

/-- The requirement built at line 109–114.  `confidence = count / len`
is a Python float; `int(confidence * 5)` agrees with `count * 5 / len`
in truncated natural division on every reachable value. -/
def mkRequirement (category : String) (count len : Nat) : ToolRequirement :=
  { name := category ++ "_tool"
    description := "Tool for " ++ category ++ " related tasks"
    category := category
    priority := count * 5 / len
    dependencies := []
    auto_install := true }

/-- The category-detection loop of `detect_requirements` (lines 104–117):
a requirement is emitted when `confidence > 0.2`, i.e. `5 * count > len`. -/
def detectCategories (user_input : String) : List ToolRequirement :=
  patterns.filterMap fun p =>
    if 5 * keywordCount p.2 (pyLower user_input) > p.2.length then
      some (mkRequirement p.1 (keywordCount p.2 (pyLower user_input)) p.2.length)
    else none

/-- One row of the `user_requests` table (line 72–81); only the columns
written by `_store_user_request` are tracked. -/
structure RequestRow where
  request_text : String
  timestamp : Nat
deriving Repr, DecidableEq

/-- One row of the `tool_usage` table (lines 83–91). -/
structure UsageRow where
  usage_count : Nat
  success_rate : ℚ
  last_used : Nat
deriving Repr, DecidableEq

/-- The embedded SQLite store. -/
structure DB where
  user_requests : List RequestRow
  tool_usage : List (String × UsageRow)
deriving Repr, DecidableEq

/-- `detect_requirements` (lines 96–117): stores the request
(`_store_user_request`, lines 119–130) and returns the detected
requirements. -/
def detect_requirements (db : DB) (now : Nat) (user_input : String) :
    List ToolRequirement × DB :=
  (detectCategories user_input,
   { db with user_requests := db.user_requests ++ [⟨user_input, now⟩] })

/-! ### DependencyManager (lines 132–193) -/

/-- Outcome of one `pip install` subprocess (lines 168–187): zero exit,
non-zero exit, or `TimeoutExpired`. -/
inductive PipResult where
  | success
  | failure
  | timeout
deriving Repr, DecidableEq

/-- `DependencyManager` state: the installed-package cache and the
failure-backoff map `failed_installations : spec -> failure time`. -/
structure DepState where
  installed_packages : List String
  failed_installations : List (String × Nat)
deriving Repr, DecidableEq

/-- `dep.split('>=')[0].split('==')[0].strip().lower()` (lines 151, 177). -/
def bareName (dep : String) : String :=
  pyLower (pyStrip (pySplitHead (pySplitHead dep ">=") "=="))

/-- `check_dependencies` (lines 147–153). -/
def check_dependencies (st : DepState) (dependencies : List String) :
    List (String × Bool) :=
  dependencies.map fun dep => (dep, st.installed_packages.contains (bareName dep))

/-- Accumulator of `install_dependencies`: the result map, the updated
state, and the list of specs for which the package manager was actually
invoked (the `subprocess.run` calls, recorded so that "no second
invocation" is expressible). -/
structure InstallStep where
  results : List (String × Bool)
  state : DepState
  invoked : List String
deriving Repr, DecidableEq

/-- One iteration of the `install_dependencies` loop (lines 159–191):
a spec that failed less than one hour (3600 s) ago short-circuits to
`False`; otherwise `pip install` runs, success extends the installed
cache, failure or timeout records the failure time. -/
def installOne (pip : String → PipResult) (now : Nat) (acc : InstallStep)
    (dep : String) : InstallStep :=
  let attempt : InstallStep :=
    match pip dep with
    | .success =>
        { results := acc.results ++ [(dep, true)]
          state := { acc.state with
            installed_packages := acc.state.installed_packages ++ [bareName dep] }
          invoked := acc.invoked ++ [dep] }
    | .failure =>
        { results := acc.results ++ [(dep, false)]
          state := { acc.state with
            failed_installations := alInsert acc.state.failed_installations dep now }
          invoked := acc.invoked ++ [dep] }
    | .timeout =>
        { results := acc.results ++ [(dep, false)]
          state := { acc.state with
            failed_installations := alInsert acc.state.failed_installations dep now }
          invoked := acc.invoked ++ [dep] }
  match alGet acc.state.failed_installations dep with
  | some t =>
      if now - t < 3600 then { acc with results := acc.results ++ [(dep, false)] }
      else attempt
  | none => attempt

/-- `install_dependencies` (lines 155–193). -/
def install_dependencies (pip : String → PipResult) (now : Nat) (st : DepState)
    (dependencies : List String) : InstallStep :=
  dependencies.foldl (installOne pip now) ⟨[], st, []⟩

/-! ### FileWatcher (lines 232–255) -/

/-- `FileWatcher` state: `last_modified : path -> time` (line 237).
Times are rationals (seconds) because the debounce window is sub-second. -/
structure WatcherState where
  last_modified : List (String × ℚ)
deriving Repr, DecidableEq

/-- A filesystem modification event: `event.is_directory` and
`event.src_path`. -/
inductive FsEvent where
  | file (path : String)
  | dir (path : String)
deriving Repr, DecidableEq

/-- `on_modified` (lines 239–255).  Returns the updated state and the
path delivered to the callback, if any: directory events are dropped,
an event within 1.0 s of the last recorded event for the same path is
dropped without touching the record, and only `.py` paths reach the
callback. -/
def on_modified (st : WatcherState) (now : ℚ) (ev : FsEvent) :
    WatcherState × Option String :=
  match ev with
  | .dir _ => (st, none)
  | .file path =>
      let deliver : WatcherState × Option String :=
        (⟨alInsert st.last_modified path now⟩,
         if pyEndsWith path ".py" then some path else none)
      match alGet st.last_modified path with
      | some t => if now - t < 1 then (st, none) else deliver
      | none => deliver

/-! ### DynamicToolManager (lines 257–559) -/

/-- `ModuleStatus` dataclass (lines 39–51). -/
structure ModuleStatus where
  name : String
  loaded : Bool
  last_updated : Nat
  error_count : Nat
  last_error : String
  dependencies_met : Bool
deriving Repr, DecidableEq

/-- The fresh status built by `ModuleStatus(name=...)`. -/
def newModuleStatus (name : String) (now : Nat) : ModuleStatus :=
  { name := name, loaded := false, last_updated := now, error_count := 0,
    last_error := "", dependencies_met := true }

/-- What invoking a tool's bound callable does: return a value or raise
an exception with a message.  Values are abstracted to strings. -/
inductive ToolOutcome where
  | ok (value : String)
  | raises (msg : String)
deriving Repr, DecidableEq

/-- `True` exactly on `ToolOutcome.ok`. -/
def outcomeSuccess : ToolOutcome → Bool
  | .ok _ => true
  | .raises _ => false

/-- An importable Python module as `load_module` observes it: the class
names it defines, whether instantiating the manager's expected class
raises, and the callable attributes of the instance (`dir(instance)`
also lists underscore-prefixed ones; the loader filters them). -/
structure ModuleImpl where
  classes : List String
  initError : Option String
  methods : List (String × ToolOutcome)
deriving Repr, DecidableEq

/-- The host environment: files of the working directory (for
`module_exists`) and the modules importlib can import. -/
structure Env where
  files : List String
  importable : List (String × ModuleImpl)

/-- The mutable state of `DynamicToolManager` (lines 260–267): module
statuses, the tool registry, module instances, and the dependency
manager's state. -/
structure ManagerState where
  modules : List (String × ModuleStatus)
  loaded_tools : List (String × ToolOutcome)
  module_instances : List (String × ModuleImpl)
  dep_state : DepState
deriving Repr, DecidableEq

/-- `importlib.import_module` / `importlib.reload` (lines 368–371):
the imported module, or the `ImportError` message. -/
def importResult (env : Env) (module_name : String) : Except String ModuleImpl :=
  match alGet env.importable module_name with
  | none => .error ("No module named '" ++ module_name ++ "'")
  | some impl => .ok impl

/-- The body of `load_module`'s `try` block up to instantiation
(lines 367–378 and the explicit `AttributeError` of line 393): import,
resolve the `...Module` class, instantiate it. -/
def resolveInstance (env : Env) (module_name : String) :
    Except String ModuleImpl :=
  match importResult env module_name with
  | .error e => .error e
  | .ok impl =>
      if impl.classes.contains (moduleClassName module_name) then
        match impl.initError with
        | some e => .error e
        | none => .ok impl
      else .error ("Module class " ++ moduleClassName module_name ++ " not found")

/-- `_load_tools_from_instance` (lines 417–425): every public callable
attribute is registered under `"{module_name}_{method_name}"`. -/
def _load_tools_from_instance (tools : List (String × ToolOutcome))
    (module_name : String) (impl : ModuleImpl) : List (String × ToolOutcome) :=
  impl.methods.foldl
    (fun acc m =>
      if pyStartsWith m.1 "_" then acc
      else alInsert acc (module_name ++ "_" ++ m.1) m.2)
    tools

/-- `load_module` (lines 358–404). -/
def load_module (env : Env) (now : Nat) (st : ManagerState)
    (module_name : String) : Bool × ManagerState :=
  let modules0 :=
    if (alGet st.modules module_name).isSome then st.modules
    else alInsert st.modules module_name (newModuleStatus module_name now)
  let status := (alGet modules0 module_name).getD (newModuleStatus module_name now)
  match resolveInstance env module_name with
  | .ok impl =>
      (true,
       { st with
         modules := alInsert modules0 module_name
           { status with
             loaded := true
             last_updated := now
             error_count := 0
             last_error := "" }
         loaded_tools := _load_tools_from_instance st.loaded_tools module_name impl
         module_instances := alInsert st.module_instances module_name impl })
  | .error msg =>
      (false,
       { st with
         modules := alInsert modules0 module_name
           { status with
             loaded := false
             error_count := status.error_count + 1
             last_error := msg } })

/-- `reload_module` (lines 406–415): only when prior instance state
exists, delete every tool whose key starts with the module name, then
load again. -/
def reload_module (env : Env) (now : Nat) (st : ManagerState)
    (module_name : String) : ManagerState :=
  if (alGet st.module_instances module_name).isSome then
    let st' := { st with
      loaded_tools := st.loaded_tools.filter fun t => !(pyStartsWith t.1 module_name) }
    (load_module env now st' module_name).2
  else st

/-- `module_exists` (lines 336–338): `Path(f"{module_path}.py").exists()`. -/
def module_exists (env : Env) (module_path : String) : Bool :=
  env.files.contains (module_path ++ ".py")

/-- The category → module lookup table of `load_module_by_category`
(lines 342–351). -/
def module_mapping : List (String × String) :=
  [("financial", "financial_compliance"),
   ("health", "health_focus"),
   ("productivity", "task_automation"),
   ("security", "security_privacy"),
   ("data", "data_reports"),
   ("api", "api_tools_module"),
   ("research", "api_tools_module"),
   ("information", "api_tools_module")]

/-- `load_module_by_category` (lines 340–356). -/
def load_module_by_category (env : Env) (now : Nat) (st : ManagerState)
    (category : String) : Bool × ManagerState :=
  match alGet module_mapping (pyLower category) with
  | some module_name => load_module env now st module_name
  | none => (false, st)

/-- The result dictionary of `detect_and_load_requirements`
(lines 299–304). -/
structure DetectResults where
  detected_requirements : List ToolRequirement
  loaded_modules : List String
  failed_modules : List String
  installed_dependencies : List String
deriving Repr, DecidableEq

/-- One iteration of the requirement loop of
`detect_and_load_requirements` (lines 306–332).  The existence check
uses `f"{requirement.category.lower()}_module"` (line 309), while the
load resolves the category through `module_mapping`. -/
def processRequirement (env : Env) (pip : String → PipResult) (now : Nat)
    (acc : DetectResults × ManagerState) (req : ToolRequirement) :
    DetectResults × ManagerState :=
  let results := acc.1
  let st := acc.2
  let module_path := pyLower req.category ++ "_module"
  if module_exists env module_path then
    let depDone : DetectResults × ManagerState :=
      if !req.dependencies.isEmpty then
        let dep_status := check_dependencies st.dep_state req.dependencies
        let missing_deps := (dep_status.filter fun p => !p.2).map (·.1)
        if !missing_deps.isEmpty && req.auto_install then
          let step := install_dependencies pip now st.dep_state missing_deps
          ({ results with installed_dependencies :=
               results.installed_dependencies ++
                 (step.results.filter (·.2)).map (·.1) },
           { st with dep_state := step.state })
        else (results, st)
      else (results, st)
    let loaded := load_module_by_category env now depDone.2 req.category
    if loaded.1 then
      ({ depDone.1 with loaded_modules := depDone.1.loaded_modules ++ [req.name] },
       loaded.2)
    else
      ({ depDone.1 with failed_modules := depDone.1.failed_modules ++ [req.name] },
       loaded.2)
  else
    ({ results with failed_modules := results.failed_modules ++ [req.name] }, st)

/-- `detect_and_load_requirements` (lines 296–334). -/
def detect_and_load_requirements (env : Env) (pip : String → PipResult)
    (now : Nat) (st : ManagerState) (db : DB) (user_input : String) :
    DetectResults × ManagerState × DB :=
  let detected := detect_requirements db now user_input
  let init : DetectResults :=
    { detected_requirements := detected.1, loaded_modules := [],
      failed_modules := [], installed_dependencies := [] }
  let out := detected.1.foldl (processRequirement env pip now) (init, st)
  (out.1, out.2, detected.2)

/-- The dictionary shape returned by `execute_tool`: each field models
the presence or absence of the corresponding key. -/
structure ExecResult where
  result : Option String
  error : Option String
  success : Option Bool
deriving Repr, DecidableEq

/-- `_update_tool_usage` (lines 486–515): read-modify-write of the
`tool_usage` row for the tool name. -/
def _update_tool_usage (db : DB) (now : Nat) (tool_name : String)
    (success : Bool) : DB :=
  match alGet db.tool_usage tool_name with
  | some row =>
      { db with tool_usage :=
          db.tool_usage.map fun p =>
            if p.1 == tool_name then
              (tool_name,
               { usage_count := row.usage_count + 1
                 success_rate := (row.success_rate * (row.usage_count : ℚ) +
                     (if success then 1 else 0)) / ((row.usage_count : ℚ) + 1)
                 last_used := now })
            else p }
  | none =>
      { db with tool_usage :=
          db.tool_usage ++
            [(tool_name,
              { usage_count := 1
                success_rate := if success then 1 else 0
                last_used := now })] }

/-- `execute_tool` (lines 461–484).  An unregistered name returns
`{"error": ...}` with no `success` key and touches nothing; otherwise
the callable runs, statistics are updated, and an exception is caught
and reported as `{"error": msg, "success": false}`. -/
def execute_tool (st : ManagerState) (db : DB) (now : Nat)
    (tool_name : String) : ExecResult × DB :=
  match alGet st.loaded_tools tool_name with
  | none =>
      ({ result := none
         error := some ("Tool " ++ tool_name ++ " not found or not loaded")
         success := none }, db)
  | some (.ok v) =>
      ({ result := some v, error := none, success := some true },
       _update_tool_usage db now tool_name true)
  | some (.raises msg) =>
      ({ result := none, error := some msg, success := some false },
       _update_tool_usage db now tool_name false)

/-- The per-tool entry of `get_available_tools` (lines 431–459);
description and parameter metadata come from runtime introspection and
are not modelled. -/
structure ToolInfo where
  name : String
  module : String
  loaded : Bool
deriving Repr, DecidableEq

/-- `get_available_tools` (lines 431–459), the spec's `list_tools()`:
one entry per registry key; `module` is `tool_name.split('_')[0]` when
the name contains an underscore, else `"unknown"` (line 452). -/
def get_available_tools (st : ManagerState) : List ToolInfo :=
  st.loaded_tools.map fun t =>
    { name := t.1
      module := if strContains t.1 "_" then pySplitHead t.1 "_" else "unknown"
      loaded := true }

/-- A manager as `__init__` (lines 260–270) builds it, with an empty
dependency cache. -/
def initialManagerState : ManagerState :=
  { modules := [], loaded_tools := [], module_instances := [],
    dep_state := { installed_packages := [], failed_installations := [] } }

/-- A fresh store after `setup_database`. -/
def emptyDB : DB := { user_requests := [], tool_usage := [] }

/-! ### Concrete fixtures for the repository as shipped -/

/-- The surface of `financial_compliance.py` that `load_module`
observes: the class `FinancialComplianceModule` and the instance's
public callables (`track_expenses`, `analyze_budget`,
`check_compliance`, `get_db_connection`, `setup_encryption`,
`setup_compliance_rules`); tool return values are abstracted. -/
def financialComplianceImpl : ModuleImpl :=
  { classes := ["FinancialComplianceModule"]
    initError := none
    methods :=
      [("analyze_budget", .ok "budget analysis"),
       ("check_compliance", .ok "compliance report"),
       ("get_db_connection", .ok "connection"),
       ("setup_compliance_rules", .ok "rules"),
       ("setup_encryption", .ok "encryption"),
       ("track_expenses", .ok "expense tracked"),
       ("_validate_expense", .ok "validated")] }

/-- The repository's working directory as shipped: the Python source
files present next to `dynamic_tool_manager.py`.  No
`financial_module.py` (nor any other `*_module.py` except
`api_tools_module.py`) exists. -/
def repoEnv : Env :=
  { files :=
      ["api_integrations.py", "api_tools_module.py", "app.py",
       "data_reports.py", "dynamic_tool_manager.py",
       "financial_compliance.py", "health_focus.py",
       "interactive_mcp_server.py", "main.py", "mcp_server.py",
       "quick_start.py", "security_privacy.py", "startup_check.py"]
    importable := [("financial_compliance", financialComplianceImpl)] }

/-- Fixture: a manager owning one registered tool whose callable raises. -/
def raisingState : ManagerState :=
  { initialManagerState with
    loaded_tools := [("boom_tool", ToolOutcome.raises "kaboom")] }

/-- Fixture: a store with one existing usage row. -/
def usageDB : DB :=
  { user_requests := []
    tool_usage := [("boom_tool", { usage_count := 3, success_rate := 1, last_used := 5 })] }

/-- Fixture: an environment in which nothing is importable and no file
exists, so every load fails with an import error. -/
def bareEnv : Env := { files := [], importable := [] }

/-- Fixture: a module `data` whose class name matches
`moduleClassName "data" = "DataModule"` and which exposes one tool. -/
def dataImpl : ModuleImpl :=
  { classes := ["DataModule"]
    initError := none
    methods := [("fetch", .ok "rows")] }

/-- Fixture: a manager holding instance state for module `data`,
a tool of the distinct module `data_reports`, and an unrelated tool. -/
def prefixState : ManagerState :=
  { initialManagerState with
    module_instances := [("data", dataImpl)]
    loaded_tools :=
      [("data_reports_generate_report", .ok "report"),
       ("health_focus_sleep", .ok "log")] }

/-- Fixture: the environment in which module `data` loads successfully. -/
def prefixEnv : Env := { files := [], importable := [("data", dataImpl)] }

/-- Fixture: a manager with instance state and tools for `ghost_mod`,
whose reload will fail in `bareEnv`. -/
def ghostState : ManagerState :=
  { initialManagerState with
    module_instances := [("ghost_mod", { classes := ["GhostModModule"], initError := none, methods := [] })]
    loaded_tools := [("ghost_mod_run", .ok "x")] }

/-- Fixture: a dependency state that recorded a failure for `badpkg`
at time 0. -/
def cooldownDep : DepState :=
  { installed_packages := [], failed_installations := [("badpkg", 0)] }

/-- The registry keys that `load_module module_name` registers: on a
successful resolution, one key `"{module_name}_{method}"` per public
method; none on a failed one.  Spec-side characterization used to state
the reload semantics. -/
def loadedKeys (env : Env) (module_name : String) : List String :=
  match resolveInstance env module_name with
  | .ok impl =>
      (impl.methods.filter fun x => !(pyStartsWith x.1 "_")).map
        fun x => module_name ++ "_" ++ x.1
  | .error _ => []

/-! ### Association-list lemmas -/

theorem alGet_nil {β : Type} (k : String) : alGet ([] : List (String × β)) k = none := rfl

theorem alGet_cons {β : Type} (p : String × β) (l : List (String × β)) (k : String) :
    alGet (p :: l) k = if p.1 = k then some p.2 else alGet l k := by
  by_cases h : p.1 = k
  · unfold alGet
    rw [List.find?_cons_of_pos _ (by simpa using h)]
    simp [h]
  · unfold alGet
    rw [List.find?_cons_of_neg _ (by simpa using h)]
    simp [h]

theorem any_key_iff {β : Type} (l : List (String × β)) (k : String) :
    (l.any fun p => p.1 == k) = true ↔ k ∈ alKeys l := by
  rw [List.any_eq_true]
  constructor
  · rintro ⟨p, hp, he⟩
    exact List.mem_map.mpr ⟨p, hp, beq_iff_eq.mp he⟩
  · intro hk
    rcases List.mem_map.mp hk with ⟨p, hp, he⟩
    exact ⟨p, hp, beq_iff_eq.mpr he⟩

theorem alGet_eq_none_iff {β : Type} (l : List (String × β)) (k : String) :
    alGet l k = none ↔ k ∉ alKeys l := by
  induction l with
  | nil => simp [alGet, alKeys]
  | cons p l ih =>
      by_cases hp : p.1 = k
      · simp [alGet_cons, hp, alKeys]
      · rw [alGet_cons, if_neg hp, ih]
        simp [alKeys, Ne.symm hp]

theorem alGet_isSome_iff {β : Type} (l : List (String × β)) (k : String) :
    (alGet l k).isSome ↔ k ∈ alKeys l := by
  rcases h : alGet l k with _ | v
  · simpa [h] using (alGet_eq_none_iff l k).mp h
  · have : ¬ alGet l k = none := by simp [h]
    simpa [h] using (by simpa using (alGet_eq_none_iff l k).not.mp this)

theorem alGet_overwrite_self {β : Type} (l : List (String × β)) (k : String) (v : β)
    (h : k ∈ alKeys l) :
    alGet (l.map fun p => if p.1 == k then (k, v) else p) k = some v := by
  simp only [beq_iff_eq]
  induction l with
  | nil => simp [alKeys] at h
  | cons p l ih =>
      by_cases hp : p.1 = k
      · simp [hp, alGet_cons]
      · have hmem : k ∈ alKeys l := by
          rcases (by simpa [alKeys] using h) with h1 | h1
          · exact absurd h1.symm hp
          · simpa [alKeys] using h1
        simp [alGet_cons, hp, ih hmem]

theorem alGet_overwrite_ne {β : Type} (l : List (String × β)) (k k' : String) (v : β)
    (h : k' ≠ k) :
    alGet (l.map fun p => if p.1 == k then (k, v) else p) k' = alGet l k' := by
  simp only [beq_iff_eq]
  induction l with
  | nil => rfl
  | cons p l ih =>
      by_cases hp : p.1 = k
      · simp [alGet_cons, hp, Ne.symm h, ih]
      · by_cases hq : p.1 = k'
        · rw [List.map_cons, if_neg hp, alGet_cons, alGet_cons]
          simp [hq]
        · simp [alGet_cons, hp, hq, ih]

theorem alGet_append_single_self {β : Type} (l : List (String × β)) (k : String) (v : β)
    (h : alGet l k = none) : alGet (l ++ [(k, v)]) k = some v := by
  induction l with
  | nil => simp [alGet_cons]
  | cons p l ih =>
      by_cases hp : p.1 = k
      · simp [alGet_cons, hp] at h
      · simp [alGet_cons, hp] at h ⊢
        exact ih h

theorem alGet_append_single_ne {β : Type} (l : List (String × β)) (k k' : String) (v : β)
    (h : k' ≠ k) : alGet (l ++ [(k, v)]) k' = alGet l k' := by
  induction l with
  | nil => simp [alGet_cons, alGet_nil, Ne.symm h]
  | cons p l ih =>
      by_cases hp : p.1 = k'
      · simp [alGet_cons, hp]
      · simp [alGet_cons, hp, ih]

theorem alGet_alInsert_self {β : Type} (l : List (String × β)) (k : String) (v : β) :
    alGet (alInsert l k v) k = some v := by
  unfold alInsert
  by_cases hany : (l.any fun p => p.1 == k) = true
  · rw [if_pos hany]
    exact alGet_overwrite_self l k v ((any_key_iff l k).mp hany)
  · rw [if_neg hany]
    apply alGet_append_single_self
    rw [alGet_eq_none_iff]
    exact fun hmem => hany ((any_key_iff l k).mpr hmem)

theorem alGet_alInsert_ne {β : Type} (l : List (String × β)) (k k' : String) (v : β)
    (h : k' ≠ k) : alGet (alInsert l k v) k' = alGet l k' := by
  unfold alInsert
  by_cases hany : (l.any fun p => p.1 == k) = true
  · rw [if_pos hany]
    exact alGet_overwrite_ne l k k' v h
  · rw [if_neg hany]
    exact alGet_append_single_ne l k k' v h

theorem alKeys_overwrite {β : Type} (l : List (String × β)) (k : String) (v : β) :
    alKeys (l.map fun p => if p.1 == k then (k, v) else p) = alKeys l := by
  simp only [beq_iff_eq]
  induction l with
  | nil => rfl
  | cons p l ih =>
      by_cases hp : p.1 = k
      · simpa [alKeys, hp] using ih
      · simpa [alKeys, hp] using ih

theorem mem_alKeys_alInsert {β : Type} (l : List (String × β)) (k k' : String) (v : β) :
    k' ∈ alKeys (alInsert l k v) ↔ k' = k ∨ k' ∈ alKeys l := by
  unfold alInsert
  by_cases hany : (l.any fun p => p.1 == k) = true
  · rw [if_pos hany, alKeys_overwrite]
    have hk := (any_key_iff l k).mp hany
    constructor
    · exact Or.inr
    · rintro (rfl | hmem)
      · exact hk
      · exact hmem
  · rw [if_neg hany]
    simp [alKeys, or_comm]

/-! ### Requirement detection (C2) -/

theorem patterns_category_inj (c : String) (k1 k2 : List String)
    (h1 : (c, k1) ∈ patterns) (h2 : (c, k2) ∈ patterns) : k1 = k2 := by
  simp [patterns] at h1 h2
  rcases h1 with ⟨hc1, hk1⟩ | ⟨hc1, hk1⟩ | ⟨hc1, hk1⟩ | ⟨hc1, hk1⟩ | ⟨hc1, hk1⟩ <;>
    rcases h2 with ⟨hc2, hk2⟩ | ⟨hc2, hk2⟩ | ⟨hc2, hk2⟩ | ⟨hc2, hk2⟩ | ⟨hc2, hk2⟩ <;>
      first
        | exact absurd (hc1.symm.trans hc2) (by decide)
        | rw [hk1, hk2]

/-- C2 (counterexample): the input `"audit"` contains exactly 20 % of the
`security` keyword set (1 of 5), yet `detect` emits no requirement at
all, refuting the claim's "at least 20 %" clause. -/
theorem C2_threshold_counterexample :
    ("security", ["security", "privacy", "encrypt", "audit", "compliance"]) ∈ patterns ∧
    5 * keywordCount ["security", "privacy", "encrypt", "audit", "compliance"]
        (pyLower "audit") =
      (["security", "privacy", "encrypt", "audit", "compliance"] : List String).length ∧
    detectCategories "audit" = [] := by decide

/-- C2 (amended): for every known category, a requirement for it is
emitted iff the lower-cased text contains strictly more than 20 % of the
category's keyword set, and then with
`priority = floor(confidence * 5) = count * 5 / len`; at or below the
20 % threshold no requirement for that category is emitted. -/
theorem C2_detect_spec (t cat : String) (kws : List String)
    (hmem : (cat, kws) ∈ patterns) :
    (5 * keywordCount kws (pyLower t) > kws.length →
      mkRequirement cat (keywordCount kws (pyLower t)) kws.length ∈ detectCategories t) ∧
    (5 * keywordCount kws (pyLower t) ≤ kws.length →
      ∀ r ∈ detectCategories t, r.category ≠ cat) := by
  constructor
  · intro hgt
    unfold detectCategories
    refine List.mem_filterMap.mpr ⟨(cat, kws), hmem, ?_⟩
    dsimp only
    rw [if_pos hgt]
  · intro hle r hr hcat
    rcases List.mem_filterMap.mp hr with ⟨p, hp, hfp⟩
    by_cases hc : 5 * keywordCount p.2 (pyLower t) > p.2.length
    · rw [if_pos hc] at hfp
      have hr' : r = mkRequirement p.1 (keywordCount p.2 (pyLower t)) p.2.length :=
        (Option.some.inj hfp).symm
      have hp1 : p.1 = cat := by
        rw [hr'] at hcat
        simpa [mkRequirement] using hcat
      have hkws : p.2 = kws := by
        apply patterns_category_inj cat p.2 kws _ hmem
        rw [← hp1]
        exact hp
      rw [hkws] at hc
      omega
    · rw [if_neg hc] at hfp
      exact Option.noConfusion hfp

/-- C2 (witness): the text `"track my budget and expense"` contains 2 of
the 6 financial keywords, so the financial requirement with priority
`10 / 6 = 1` is emitted. -/
theorem C2_detect_spec_witness :
    mkRequirement "financial"
        (keywordCount ["budget", "expense", "money", "cost", "financial", "payment"]
          (pyLower "track my budget and expense"))
        (["budget", "expense", "money", "cost", "financial", "payment"] : List String).length ∈
      detectCategories "track my budget and expense" := by
  exact (C2_detect_spec "track my budget and expense" "financial"
    ["budget", "expense", "money", "cost", "financial", "payment"] (by decide)).1 (by decide)

/-! ### Tool execution (C3, C4, C5) -/

/-- C3 (counterexample): `execute_tool` on an unregistered name returns
a dictionary with no `success` key — not the declared `{error, success}`
shape — while it does carry the not-found error. -/
theorem C3_shape_counterexample :
    (execute_tool initialManagerState emptyDB 0 "ghost").1.success = none ∧
    (execute_tool initialManagerState emptyDB 0 "ghost").1.error =
      some "Tool ghost not found or not loaded" := by decide

/-- C3 (amended): for every state, store and arguments, `execute_tool`
on a name absent from the registry returns exactly
`{"error": "Tool <name> not found or not loaded"}` — with no `success`
and no `result` key — and leaves the store (including every `tool_usage`
row) untouched. -/
theorem C3_not_found_spec (st : ManagerState) (db : DB) (now : Nat)
    (tool_name : String) (h : alGet st.loaded_tools tool_name = none) :
    execute_tool st db now tool_name =
      ({ result := none
         error := some ("Tool " ++ tool_name ++ " not found or not loaded")
         success := none }, db) := by
  unfold execute_tool
  rw [h]

/-- C3 (witness): concrete run on the empty registry. -/
theorem C3_not_found_witness :
    execute_tool initialManagerState emptyDB 0 "ghost" =
      ({ result := none
         error := some ("Tool " ++ "ghost" ++ " not found or not loaded")
         success := none }, emptyDB) := by
  exact C3_not_found_spec initialManagerState emptyDB 0 "ghost" (by decide)

/-- C4: for every registered tool whose bound callable raises, the
exception is caught and reported as `{error: message, success: false}`;
`execute_tool` is total, so nothing propagates. -/
theorem C4_exception_caught (st : ManagerState) (db : DB) (now : Nat)
    (tool_name msg : String)
    (h : alGet st.loaded_tools tool_name = some (ToolOutcome.raises msg)) :
    (execute_tool st db now tool_name).1 =
      { result := none, error := some msg, success := some false } := by
  unfold execute_tool
  rw [h]

/-- C4 (witness): the raising tool of `raisingState`. -/
theorem C4_exception_caught_witness :
    (execute_tool raisingState emptyDB 0 "boom_tool").1 =
      { result := none, error := some "kaboom", success := some false } := by
  exact C4_exception_caught raisingState emptyDB 0 "boom_tool" "kaboom" (by decide)

theorem update_usage_self_existing (db : DB) (now : Nat) (tool_name : String)
    (success : Bool) (row : UsageRow)
    (h : alGet db.tool_usage tool_name = some row) :
    alGet (_update_tool_usage db now tool_name success).tool_usage tool_name =
      some { usage_count := row.usage_count + 1
             success_rate := (row.success_rate * (row.usage_count : ℚ) +
                 (if success then 1 else 0)) / ((row.usage_count : ℚ) + 1)
             last_used := now } := by
  unfold _update_tool_usage
  rw [h]
  exact alGet_overwrite_self _ _ _
    ((alGet_isSome_iff _ _).mp (by simp [h]))

theorem update_usage_self_new (db : DB) (now : Nat) (tool_name : String)
    (success : Bool) (h : alGet db.tool_usage tool_name = none) :
    alGet (_update_tool_usage db now tool_name success).tool_usage tool_name =
      some { usage_count := 1
             success_rate := if success then 1 else 0
             last_used := now } := by
  unfold _update_tool_usage
  rw [h]
  exact alGet_append_single_self _ _ _ h

theorem update_usage_other (db : DB) (now : Nat) (tool_name : String)
    (success : Bool) (other : String) (hne : other ≠ tool_name) :
    alGet (_update_tool_usage db now tool_name success).tool_usage other =
      alGet db.tool_usage other := by
  unfold _update_tool_usage
  cases hdb : alGet db.tool_usage tool_name with
  | none => exact alGet_append_single_ne _ _ _ _ hne
  | some row => exact alGet_overwrite_ne _ _ _ _ hne

/-- C5: after `execute_tool` on a registered tool — whether the callable
succeeded or raised — the usage row for that name is updated exactly
once: an existing row becomes `(count+1, (rate*count + success)/(count+1),
now)`, a missing row is created as `(1, success, now)`, and every other
tool's row is untouched. -/
theorem C5_usage_update (st : ManagerState) (db : DB) (now : Nat)
    (tool_name : String) (outcome : ToolOutcome)
    (h : alGet st.loaded_tools tool_name = some outcome) :
    (∀ row, alGet db.tool_usage tool_name = some row →
      alGet (execute_tool st db now tool_name).2.tool_usage tool_name =
        some { usage_count := row.usage_count + 1
               success_rate := (row.success_rate * (row.usage_count : ℚ) +
                   (if outcomeSuccess outcome then 1 else 0)) / ((row.usage_count : ℚ) + 1)
               last_used := now }) ∧
    (alGet db.tool_usage tool_name = none →
      alGet (execute_tool st db now tool_name).2.tool_usage tool_name =
        some { usage_count := 1
               success_rate := if outcomeSuccess outcome then 1 else 0
               last_used := now }) ∧
    (∀ other, other ≠ tool_name →
      alGet (execute_tool st db now tool_name).2.tool_usage other =
        alGet db.tool_usage other) := by
  cases outcome with
  | ok v =>
      unfold execute_tool
      rw [h]
      exact ⟨fun row hrow => by
          simpa [outcomeSuccess] using update_usage_self_existing db now tool_name true row hrow,
        fun hnone => by
          simpa [outcomeSuccess] using update_usage_self_new db now tool_name true hnone,
        fun other hne => update_usage_other db now tool_name true other hne⟩
  | raises m =>
      unfold execute_tool
      rw [h]
      exact ⟨fun row hrow => by
          simpa [outcomeSuccess] using update_usage_self_existing db now tool_name false row hrow,
        fun hnone => by
          simpa [outcomeSuccess] using update_usage_self_new db now tool_name false hnone,
        fun other hne => update_usage_other db now tool_name false other hne⟩

/-- C5 (witness): the raising tool of `raisingState` against the
existing row `(3, 1, 5)` of `usageDB`. -/
theorem C5_usage_update_witness :
    alGet (execute_tool raisingState usageDB 7 "boom_tool").2.tool_usage "boom_tool" =
      some { usage_count := (3 : ℕ) + 1
             success_rate := ((1 : ℚ) * ((3 : ℕ) : ℚ) +
                 (if outcomeSuccess (ToolOutcome.raises "kaboom") then 1 else 0)) /
               (((3 : ℕ) : ℚ) + 1)
             last_used := 7 } := by
  exact (C5_usage_update raisingState usageDB 7 "boom_tool"
      (ToolOutcome.raises "kaboom") (by decide)).1
    { usage_count := 3, success_rate := 1, last_used := 5 } (by decide)

/-! ### Module load and reload (C6, C7, C10) -/

/-- C6: a failed `load_module` — import, class resolution or
instantiation raising — returns `false`, marks the status unloaded with
`error_count` incremented and the exception message recorded, and
removes nothing from the registered tools (nor the instances): tools of
a prior successful load stay registered. -/
theorem C6_failed_load_frame (env : Env) (now : Nat) (st : ManagerState)
    (module_name : String)
    (h : (load_module env now st module_name).1 = false) :
    (load_module env now st module_name).2.loaded_tools = st.loaded_tools ∧
    (load_module env now st module_name).2.module_instances = st.module_instances ∧
    ∃ msg : String,
      resolveInstance env module_name = Except.error msg ∧
      alGet (load_module env now st module_name).2.modules module_name =
        some { (alGet st.modules module_name).getD (newModuleStatus module_name now) with
               loaded := false
               error_count :=
                 ((alGet st.modules module_name).getD
                   (newModuleStatus module_name now)).error_count + 1
               last_error := msg } := by
  unfold load_module at h ⊢
  cases hres : resolveInstance env module_name with
  | ok impl =>
      rw [hres] at h
      simp at h
  | error msg =>
      refine ⟨rfl, rfl, msg, rfl, ?_⟩
      dsimp only
      by_cases hst : (alGet st.modules module_name).isSome
      · rcases Option.isSome_iff_exists.mp hst with ⟨s, hs⟩
        simp only [hs, Option.isSome_some, if_true, Option.getD_some]
        rw [alGet_alInsert_self]
      · have hnone : alGet st.modules module_name = none :=
          Option.not_isSome_iff_eq_none.mp hst
        simp only [hnone, Option.isSome_none, Bool.false_eq_true, if_false,
          Option.getD_none]
        rw [alGet_alInsert_self, alGet_alInsert_self]
        simp

/-- C6 (witness): loading the unimportable module `ghost` in the bare
environment. -/
theorem C6_failed_load_frame_witness :
    (load_module bareEnv 0 initialManagerState "ghost").2.loaded_tools =
      initialManagerState.loaded_tools ∧
    (load_module bareEnv 0 initialManagerState "ghost").2.module_instances =
      initialManagerState.module_instances ∧
    ∃ msg : String,
      resolveInstance bareEnv "ghost" = Except.error msg ∧
      alGet (load_module bareEnv 0 initialManagerState "ghost").2.modules "ghost" =
        some { (alGet initialManagerState.modules "ghost").getD (newModuleStatus "ghost" 0) with
               loaded := false
               error_count :=
                 ((alGet initialManagerState.modules "ghost").getD
                   (newModuleStatus "ghost" 0)).error_count + 1
               last_error := msg } := by
  exact C6_failed_load_frame bareEnv 0 initialManagerState "ghost" (by decide)

/-- C7: when prior instance state exists, `reload_module` first removes
every registered tool whose qualified name is prefixed by the module
name and then loads; if that load fails, `list_tools()` afterwards has
no entry prefixed by the module name. -/
theorem C7_reload_fail_removes (env : Env) (now : Nat) (st : ManagerState)
    (module_name msg : String)
    (hin : (alGet st.module_instances module_name).isSome)
    (hfail : resolveInstance env module_name = Except.error msg) :
    ∀ ti ∈ get_available_tools (reload_module env now st module_name),
      pyStartsWith ti.name module_name = false := by
  intro ti hti
  unfold reload_module at hti
  rw [if_pos hin] at hti
  unfold load_module at hti
  rw [hfail] at hti
  unfold get_available_tools at hti
  rcases List.mem_map.mp hti with ⟨tool, htool, rfl⟩
  have hmem := List.mem_filter.mp htool
  simpa using hmem.2

/-- C7 (witness): reloading `ghost_mod` — whose instance state and one
tool are present — in the bare environment, where its load fails, leaves
`list_tools` with zero entries prefixed by the module name. -/
theorem C7_reload_fail_removes_witness :
    (get_available_tools (reload_module bareEnv 0 ghostState "ghost_mod")).filter
      (fun ti => pyStartsWith ti.name "ghost_mod") = [] := by
  have h := C7_reload_fail_removes bareEnv 0 ghostState "ghost_mod"
    ("No module named '" ++ "ghost_mod" ++ "'") (by decide) rfl
  rw [List.filter_eq_nil]
  intro ti hti
  simp [h ti hti]

theorem mem_alKeys_fold_tools (ms : List (String × ToolOutcome))
    (tools : List (String × ToolOutcome)) (m k : String) :
    k ∈ alKeys (ms.foldl
        (fun acc x =>
          if pyStartsWith x.1 "_" then acc
          else alInsert acc (m ++ "_" ++ x.1) x.2) tools) ↔
      k ∈ alKeys tools ∨
        k ∈ (ms.filter fun x => !(pyStartsWith x.1 "_")).map (fun x => m ++ "_" ++ x.1) := by
  induction ms generalizing tools with
  | nil => simp
  | cons x ms ih =>
      by_cases hx : pyStartsWith x.1 "_"
      · rw [List.foldl_cons, if_pos hx, ih]
        simp [hx]
      · rw [List.foldl_cons, if_neg hx, ih, mem_alKeys_alInsert]
        simp only [List.filter_cons, Bool.not_eq_true', eq_false_of_ne_true hx,
          if_true, List.map_cons, List.mem_cons]
        tauto

theorem mem_alKeys_load_tools (tools : List (String × ToolOutcome))
    (module_name : String) (impl : ModuleImpl) (k : String) :
    k ∈ alKeys (_load_tools_from_instance tools module_name impl) ↔
      k ∈ alKeys tools ∨
        k ∈ (impl.methods.filter fun x => !(pyStartsWith x.1 "_")).map
          (fun x => module_name ++ "_" ++ x.1) := by
  unfold _load_tools_from_instance
  exact mem_alKeys_fold_tools impl.methods tools module_name k

theorem mem_alKeys_filter_removed (l : List (String × ToolOutcome))
    (m k : String) :
    k ∈ alKeys (l.filter fun t => !(pyStartsWith t.1 m)) ↔
      k ∈ alKeys l ∧ pyStartsWith k m = false := by
  simp only [alKeys, List.mem_map, List.mem_filter, Bool.not_eq_true']
  constructor
  · rintro ⟨t, ⟨ht, hp⟩, rfl⟩
    exact ⟨⟨t, ht, rfl⟩, hp⟩
  · rintro ⟨⟨t, ht, rfl⟩, hp⟩
    exact ⟨t, ⟨ht, hp⟩, rfl⟩

/-- C10: `reload_module m` with prior instance state removes exactly the
registry keys that start with the raw string `m` — including keys owned
by a different module whose name has `m` as a string prefix — and a key
starting with `m` survives only if the subsequent load re-registers it;
without prior instance state the call is a complete no-op. -/
theorem C10_reload_semantics (env : Env) (now : Nat) (st : ManagerState)
    (module_name : String) :
    ((alGet st.module_instances module_name).isSome →
      ∀ k, k ∈ alKeys (reload_module env now st module_name).loaded_tools ↔
        ((k ∈ alKeys st.loaded_tools ∧ pyStartsWith k module_name = false) ∨
          k ∈ loadedKeys env module_name)) ∧
    (alGet st.module_instances module_name = none →
      reload_module env now st module_name = st) := by
  constructor
  · intro hin k
    unfold reload_module
    rw [if_pos hin]
    unfold load_module loadedKeys
    cases hres : resolveInstance env module_name with
    | ok impl =>
        dsimp only
        rw [mem_alKeys_load_tools, mem_alKeys_filter_removed]
    | error msg =>
        dsimp only
        rw [mem_alKeys_filter_removed]
        simp
  · intro hnone
    unfold reload_module
    simp [hnone]

/-- C10 (witness): reloading module `data` removes the tool
`data_reports_generate_report` owned by the distinct module
`data_reports`, keeps `health_focus_sleep`, and reloading a module with
no instance state changes nothing. -/
theorem C10_reload_semantics_witness :
    "data_reports_generate_report" ∉
      alKeys (reload_module prefixEnv 0 prefixState "data").loaded_tools ∧
    "health_focus_sleep" ∈
      alKeys (reload_module prefixEnv 0 prefixState "data").loaded_tools ∧
    reload_module prefixEnv 0 prefixState "nosuch" = prefixState := by
  refine ⟨?_, ?_, ?_⟩
  · intro hk
    have h := ((C10_reload_semantics prefixEnv 0 prefixState "data").1 (by decide)
      "data_reports_generate_report").mp hk
    rcases h with ⟨_, hpre⟩ | hnew
    · exact absurd hpre (by decide)
    · exact absurd hnew (by decide)
  · exact ((C10_reload_semantics prefixEnv 0 prefixState "data").1 (by decide)
      "health_focus_sleep").mpr (Or.inl (by decide))
  · exact (C10_reload_semantics prefixEnv 0 prefixState "nosuch").2 (by decide)

/-! ### Dependency installation cooldown (C8) -/

theorem installOne_preserves_recent (pip : String → PipResult) (now : Nat)
    (acc : InstallStep) (d dep : String) (t : Nat)
    (hrec : alGet acc.state.failed_installations dep = some t)
    (hlt : now - t < 3600) :
    alGet (installOne pip now acc d).state.failed_installations dep = some t := by
  unfold installOne
  by_cases hd : d = dep
  · subst hd
    rw [hrec]
    dsimp only
    rw [if_pos hlt]
    exact hrec
  · cases hd2 : alGet acc.state.failed_installations d with
    | some t' =>
        dsimp only
        by_cases h3 : now - t' < 3600
        · rw [if_pos h3]
          exact hrec
        · rw [if_neg h3]
          cases pip d
          · exact hrec
          · exact (alGet_alInsert_ne _ _ _ _ fun hc => hd hc.symm).trans hrec
          · exact (alGet_alInsert_ne _ _ _ _ fun hc => hd hc.symm).trans hrec
    | none =>
        dsimp only
        cases pip d
        · exact hrec
        · exact (alGet_alInsert_ne _ _ _ _ fun hc => hd hc.symm).trans hrec
        · exact (alGet_alInsert_ne _ _ _ _ fun hc => hd hc.symm).trans hrec

theorem installOne_step_mem (pip : String → PipResult) (now : Nat)
    (acc : InstallStep) (d dep : String) (t : Nat)
    (hrec : alGet acc.state.failed_installations dep = some t)
    (hlt : now - t < 3600) :
    (∀ b, ((dep, b) ∈ (installOne pip now acc d).results ↔
      (dep, b) ∈ acc.results ∨ (d = dep ∧ b = false))) ∧
    (dep ∈ (installOne pip now acc d).invoked ↔ dep ∈ acc.invoked) := by
  unfold installOne
  by_cases hd : d = dep
  · subst hd
    rw [hrec]
    dsimp only
    rw [if_pos hlt]
    constructor
    · intro b
      simp [eq_comm]
    · simp
  · cases hd2 : alGet acc.state.failed_installations d with
    | some t' =>
        dsimp only
        by_cases h3 : now - t' < 3600
        · rw [if_pos h3]
          constructor
          · intro b
            simp [hd, Ne.symm hd]
          · simp
        · rw [if_neg h3]
          cases pip d <;>
            exact ⟨fun b => by simp [hd, Ne.symm hd], by simp [hd, Ne.symm hd]⟩
    | none =>
        dsimp only
        cases pip d <;>
          exact ⟨fun b => by simp [hd, Ne.symm hd], by simp [hd, Ne.symm hd]⟩

theorem install_fold_recent (pip : String → PipResult) (now : Nat)
    (deps : List String) (acc : InstallStep) (dep : String) (t : Nat)
    (hrec : alGet acc.state.failed_installations dep = some t)
    (hlt : now - t < 3600) :
    alGet (deps.foldl (installOne pip now) acc).state.failed_installations dep = some t ∧
    (∀ b, ((dep, b) ∈ (deps.foldl (installOne pip now) acc).results ↔
      (dep, b) ∈ acc.results ∨ (b = false ∧ dep ∈ deps))) ∧
    (dep ∈ (deps.foldl (installOne pip now) acc).invoked ↔ dep ∈ acc.invoked) := by
  induction deps generalizing acc with
  | nil => simp [hrec]
  | cons d deps ih =>
      have hpres := installOne_preserves_recent pip now acc d dep t hrec hlt
      have hstep := installOne_step_mem pip now acc d dep t hrec hlt
      obtain ⟨h1, h2, h3⟩ := ih (installOne pip now acc d) hpres
      rw [List.foldl_cons] at *
      refine ⟨h1, fun b => ?_, h3.trans hstep.2⟩
      rw [h2 b, (hstep.1 b)]
      simp only [List.mem_cons]
      constructor
      · rintro ((hm | ⟨rfl, rfl⟩) | ⟨rfl, hm⟩)
        · exact Or.inl hm
        · exact Or.inr ⟨rfl, Or.inl rfl⟩
        · exact Or.inr ⟨rfl, Or.inr hm⟩
      · rintro (hm | ⟨rfl, (hd | hm)⟩)
        · exact Or.inl (Or.inl hm)
        · exact Or.inl (Or.inr ⟨hd.symm, rfl⟩)
        · exact Or.inr ⟨rfl, hm⟩

theorem install_fold_invoked_mono (pip : String → PipResult) (now : Nat)
    (deps : List String) (acc : InstallStep) (dep : String)
    (h : dep ∈ acc.invoked) :
    dep ∈ (deps.foldl (installOne pip now) acc).invoked := by
  induction deps generalizing acc with
  | nil => exact h
  | cons d deps ih =>
      rw [List.foldl_cons]
      apply ih
      unfold installOne
      cases hd2 : alGet acc.state.failed_installations d with
      | some t' =>
          dsimp only
          by_cases h3 : now - t' < 3600
          · rw [if_pos h3]
            exact h
          · rw [if_neg h3]
            cases pip d <;> simp [h]
      | none =>
          dsimp only
          cases pip d <;> simp [h]

theorem installOne_state_failed_other (pip : String → PipResult) (now : Nat)
    (acc : InstallStep) (d dep : String) (hd : d ≠ dep) :
    alGet (installOne pip now acc d).state.failed_installations dep =
      alGet acc.state.failed_installations dep := by
  unfold installOne
  cases hd2 : alGet acc.state.failed_installations d with
  | some t' =>
      dsimp only
      by_cases h3 : now - t' < 3600
      · rw [if_pos h3]
      · rw [if_neg h3]
        cases pip d
        · rfl
        · exact alGet_alInsert_ne _ _ _ _ fun hc => hd hc.symm
        · exact alGet_alInsert_ne _ _ _ _ fun hc => hd hc.symm
  | none =>
      dsimp only
      cases pip d
      · rfl
      · exact alGet_alInsert_ne _ _ _ _ fun hc => hd hc.symm
      · exact alGet_alInsert_ne _ _ _ _ fun hc => hd hc.symm

theorem install_fold_stale_attempts (pip : String → PipResult) (now : Nat)
    (deps : List String) (acc : InstallStep) (dep : String)
    (hdep : dep ∈ deps)
    (hstale : ∀ t, alGet acc.state.failed_installations dep = some t →
      3600 ≤ now - t) :
    dep ∈ (deps.foldl (installOne pip now) acc).invoked := by
  induction deps generalizing acc with
  | nil => cases hdep
  | cons d deps ih =>
      rw [List.foldl_cons]
      by_cases hd : d = dep
      · subst hd
        apply install_fold_invoked_mono
        unfold installOne
        cases hd2 : alGet acc.state.failed_installations d with
        | some t' =>
            have hge := hstale t' hd2
            dsimp only
            rw [if_neg (by omega)]
            cases pip d <;> simp
        | none =>
            dsimp only
            cases pip d <;> simp
      · have hmem : dep ∈ deps := by
          rcases List.mem_cons.mp hdep with hc | hc
          · exact absurd hc.symm hd
          · exact hc
        apply ih _ hmem
        intro t ht
        rw [installOne_state_failed_other pip now acc d dep hd] at ht
        exact hstale t ht

/-- C8: a dependency spec whose recorded installation failure is less
than one hour old is mapped to `false` without invoking the package
manager, while a spec with no recorded failure — or one at least an hour
old — is attempted. -/
theorem C8_install_cooldown (pip : String → PipResult) (now : Nat)
    (st : DepState) (deps : List String) (dep : String) (hdep : dep ∈ deps) :
    (∀ t, alGet st.failed_installations dep = some t → now - t < 3600 →
      ((dep, false) ∈ (install_dependencies pip now st deps).results ∧
       (dep, true) ∉ (install_dependencies pip now st deps).results ∧
       dep ∉ (install_dependencies pip now st deps).invoked)) ∧
    ((∀ t, alGet st.failed_installations dep = some t → 3600 ≤ now - t) →
      dep ∈ (install_dependencies pip now st deps).invoked) := by
  constructor
  · intro t hrec hlt
    obtain ⟨_, h2, h3⟩ :=
      install_fold_recent pip now deps ⟨[], st, []⟩ dep t hrec hlt
    refine ⟨?_, ?_, ?_⟩
    · exact (h2 false).mpr (Or.inr ⟨rfl, hdep⟩)
    · intro hmem
      rcases (h2 true).mp hmem with hm | ⟨hfalse, _⟩
      · simp at hm
      · exact Bool.true_eq_false.mp hfalse
    · intro hmem
      simpa using h3.mp hmem
  · intro hstale
    exact install_fold_stale_attempts pip now deps ⟨[], st, []⟩ dep hdep hstale

/-- C8 (witness): with `badpkg` having failed at time 0 and the call at
time 100, `badpkg` is mapped to `false` and pip is not invoked for it,
while the fresh spec `newpkg` is attempted. -/
theorem C8_install_cooldown_witness :
    ((("badpkg", false) ∈
        (install_dependencies (fun _ => PipResult.success) 100 cooldownDep
          ["badpkg", "newpkg"]).results) ∧
      ("badpkg", true) ∉
        (install_dependencies (fun _ => PipResult.success) 100 cooldownDep
          ["badpkg", "newpkg"]).results ∧
      "badpkg" ∉
        (install_dependencies (fun _ => PipResult.success) 100 cooldownDep
          ["badpkg", "newpkg"]).invoked) ∧
    "newpkg" ∈
      (install_dependencies (fun _ => PipResult.success) 100 cooldownDep
        ["badpkg", "newpkg"]).invoked := by
  constructor
  · exact (C8_install_cooldown (fun _ => PipResult.success) 100 cooldownDep
      ["badpkg", "newpkg"] "badpkg" (by decide)).1 0 (by decide) (by decide)
  · apply (C8_install_cooldown (fun _ => PipResult.success) 100 cooldownDep
      ["badpkg", "newpkg"] "newpkg" (by decide)).2
    intro t ht
    simp [cooldownDep, alGet] at ht


/-! ### File-change debouncing (C9) -/

theorem on_modified_delivered_state (st : WatcherState) (p : String) (t : ℚ)
    (hdel : (on_modified st t (FsEvent.file p)).2 = some p) :
    (on_modified st t (FsEvent.file p)).1 = ⟨alInsert st.last_modified p t⟩ := by
  unfold on_modified at hdel ⊢
  dsimp only at hdel ⊢
  cases hget : alGet st.last_modified p with
  | none => rfl
  | some t0 =>
      rw [hget] at hdel
      dsimp only at hdel ⊢
      by_cases hc : t - t0 < 1
      · rw [if_pos hc] at hdel
        simp at hdel
      · rw [if_neg hc]

/-- C9: an event on a path less than 1.0 s after the last delivered
event for that exact path is not delivered — two sub-second events on
the same watched source path trigger exactly one callback — directory
events are never delivered, and only `.py` paths are forwarded. -/
theorem C9_debounce (st : WatcherState) (p q : String) (t u : ℚ)
    (hdel : (on_modified st t (FsEvent.file p)).2 = some p)
    (hlt : u - t < 1) :
    (on_modified (on_modified st t (FsEvent.file p)).1 u (FsEvent.file p)).2 = none ∧
    (∀ s : WatcherState, ∀ w : ℚ, on_modified s w (FsEvent.dir q) = (s, none)) ∧
    (∀ s : WatcherState, ∀ w : ℚ, pyEndsWith q ".py" = false →
      (on_modified s w (FsEvent.file q)).2 = none) := by
  refine ⟨?_, fun s w => rfl, ?_⟩
  · rw [on_modified_delivered_state st p t hdel]
    unfold on_modified
    dsimp only
    rw [alGet_alInsert_self]
    dsimp only
    rw [if_pos hlt]
  · intro s w hq
    unfold on_modified
    dsimp only
    cases hget : alGet s.last_modified q with
    | none => simp [hq]
    | some t0 =>
        dsimp only
        by_cases hc : w - t0 < 1
        · rw [if_pos hc]
        · rw [if_neg hc]
          simp [hq]

/-- C9 (witness): two events on `mod.py` at the same instant deliver
exactly one callback; a directory event and a `.txt` event deliver
none. -/
theorem C9_debounce_witness :
    (on_modified (on_modified ⟨[]⟩ 0 (FsEvent.file "mod.py")).1 0
      (FsEvent.file "mod.py")).2 = none ∧
    (∀ s : WatcherState, ∀ w : ℚ, on_modified s w (FsEvent.dir "cfg") = (s, none)) ∧
    (∀ s : WatcherState, ∀ w : ℚ, pyEndsWith "cfg" ".py" = false →
      (on_modified s w (FsEvent.file "cfg")).2 = none) := by
  exact C9_debounce ⟨[]⟩ "mod.py" "cfg" 0 0 rfl (by simp)

/-! ### detect_and_load end to end (C1) -/

/-- C1: evaluated at the input `"I need to track my budget and expenses"`
in the repository as shipped — where `financial_compliance.py` exists and
the module `financial_compliance` imports and instantiates fine — the
financial requirement is detected, yet `detect_and_load` reports it
failed and registers no tool, because `module_exists` checks for the
nonexistent file `financial_module.py` instead of the mapped module's
own source file; a direct `load_module "financial_compliance"` in the
same environment succeeds, showing the existence check alone blocks the
load. -/
theorem C1_detect_and_load_financial_eval :
    (detect_and_load_requirements repoEnv (fun _ => PipResult.failure) 0
        initialManagerState emptyDB
        "I need to track my budget and expenses").1.detected_requirements =
      [mkRequirement "financial" 2 6] ∧
    (detect_and_load_requirements repoEnv (fun _ => PipResult.failure) 0
        initialManagerState emptyDB
        "I need to track my budget and expenses").1.loaded_modules = [] ∧
    (detect_and_load_requirements repoEnv (fun _ => PipResult.failure) 0
        initialManagerState emptyDB
        "I need to track my budget and expenses").1.failed_modules =
      ["financial_tool"] ∧
    ((get_available_tools
        (detect_and_load_requirements repoEnv (fun _ => PipResult.failure) 0
          initialManagerState emptyDB
          "I need to track my budget and expenses").2.1).filter
      fun ti => pyStartsWith ti.name "financial_compliance") = [] ∧
    repoEnv.files.contains "financial_compliance.py" = true ∧
    module_exists repoEnv "financial_module" = false ∧
    (load_module repoEnv 0 initialManagerState "financial_compliance").1 = true ∧
    alGet (load_module repoEnv 0 initialManagerState
        "financial_compliance").2.loaded_tools
      "financial_compliance_track_expenses" =
      some (ToolOutcome.ok "expense tracked") := by decide

end DTM
